import Mathlib

/-!
Formal model of the Hot Wheels catalog data-entry page.

Shallow embedding of `src/data_entry_page.py`: the fixed column schema
`COLUMNS`, the catalog loader `load_catalog` (pandas `read_csv` +
`fillna("")` + column backfill + reindex to `COLUMNS`), the writer
`save_row` (load, concat one row, rewrite the whole file), the
case/whitespace-insensitive `duplicate_exists` check, and the submit
handler's linear validate / exclusive-check / duplicate-check / save
sequence.

The on-disk file is modelled by `FileState`: missing, unparsable, or a
parsed table of optional cells (`none` models a NaN produced by the CSV
parser).  Python `str.strip` / `str.lower` are modelled over the string's
character list (`pstrip`, `plower`).  A possible I/O failure of the write
in `save_row` is modelled by the boolean `writeOk` oracle passed to
`submit`.
-/

namespace HWCatalog

/-- Python `str.strip` on the left: drop leading whitespace characters. -/
def lstrip (l : List Char) : List Char := l.dropWhile Char.isWhitespace

/-- Python `str.strip` on the right: drop trailing whitespace characters. -/
def rstrip (l : List Char) : List Char :=
  match l with
  | [] => []
  | a :: t =>
    match rstrip t with
    | [] => if a.isWhitespace then [] else [a]
    | b :: u => a :: b :: u

/-- Python `str.strip()`: trim whitespace from both ends. -/
def pstrip (s : String) : String := ⟨rstrip (lstrip s.data)⟩

/-- Python `str.lower()`: lowercase every character. -/
def plower (s : String) : String := ⟨s.data.map Char.toLower⟩

/-- The normalisation `str(x).strip().lower()` used by `duplicate_exists`. -/
def pnorm (s : String) : String := plower (pstrip s)

/-- The 14 declared catalog columns (`COLUMNS` in the source), in order. -/
def COLUMNS : List String :=
  ["Toy #", "Collector #", "Name", "Series", "Series #", "Year", "Rarity",
   "Exclusive Description", "Color", "Tampo", "Base Color", "Window Color",
   "Interior Color", "Wheel Type"]

/-- A CSV file as the pandas parser sees it: a header of column names and
rows of cells; a `none` cell is a parsed missing value (NaN). -/
structure RawTable where
  cols : List String
  rows : List (List (Option String))
deriving DecidableEq

/-- The state of the backing file `data/hw_catalog.csv`: absent, present
but unparsable (`pd.read_csv` raises), or parsed into a table. -/
inductive FileState where
  | missing
  | corrupt
  | parsed (t : RawTable)
deriving DecidableEq

/-- An in-memory dataframe after loading: named columns, string cells. -/
structure DF where
  cols : List String
  rows : List (List String)
deriving DecidableEq

/-- One cell of the loaded frame: `fillna("")` on the parsed cell of
column `c` when the file has that column, `""` backfill otherwise
(`df[col] = ""` for absent declared columns). Label lookup is by first
occurrence of the column name. -/
def loadCell (cols : List String) (row : List (Option String)) (c : String) : String :=
  if c ∈ cols then (row.getD (cols.indexOf c) none).getD ("") else ("")

/-- Semantics of `load_catalog()`: missing file and parse failure both yield the empty
frame with schema `COLUMNS`; a parsed table is `fillna("")`-ed, absent
declared columns are backfilled with `""`, and the result is reindexed to
exactly `COLUMNS` (`df[COLUMNS]`), dropping undeclared columns. -/
def load_catalog (fs : FileState) : DF :=
  match fs with
  | .missing => ⟨COLUMNS, []⟩
  | .corrupt => ⟨COLUMNS, []⟩
  | .parsed t => ⟨COLUMNS, t.rows.map (fun row => COLUMNS.map (loadCell t.cols row))⟩

/-- The default NA sentinels of `pd.read_csv`: a written cell whose text
is exactly one of these is parsed back as NaN even under `dtype=str`. -/
def NA_VALUES : List String :=
  ["", "#N/A", "#N/A N/A", "#NA", "-1.#IND", "-1.#QNAN", "-NaN", "-nan",
   "1.#IND", "1.#QNAN", "<NA>", "N/A", "NA", "NULL", "NaN", "None", "n/a",
   "nan", "null"]

/-- How one written cell comes back through `to_csv` then
`read_csv(dtype=str)`: NA-sentinel text (and the empty field) parse as
NaN, every other string survives verbatim. -/
def writeCell (v : String) : Option String :=
  if v ∈ NA_VALUES then none else some v

/-- The observable effect of the write/re-parse round trip after
`fillna("")`: NA-sentinel text collapses to the empty string. -/
def collapse (v : String) : String := (writeCell v).getD ("")

/-- Semantics of `save_row(row)`: reload the catalog, concat the new row (its dict has
exactly the `COLUMNS` keys, in order), and rewrite the whole file with
`to_csv`.  A later `read_csv(dtype=str)` parses each written cell back
via `writeCell`: NA-sentinel text (including the empty string) becomes
NaN, everything else survives verbatim. -/
def save_row (fs : FileState) (row : List String) : FileState :=
  let df := load_catalog fs
  .parsed ⟨df.cols, df.rows.map (fun r => r.map writeCell) ++ [row.map writeCell]⟩

/-- Semantics of `duplicate_exists(df, toy_no, name, series, rarity, year)`: `False` on
an empty frame; otherwise compare the five composite columns, each side
normalised by `.strip().lower()`, and take `mask.any()`.  The `try/except`
around the column accesses (a missing label raises `KeyError`) is
modelled by the membership guard, whose failure yields `False`. -/
def duplicate_exists (df : DF) (toy_no name series rarity year : String) : Bool :=
  if df.rows.isEmpty then false
  else if ("Toy #") ∈ df.cols ∧ "Name" ∈ df.cols ∧ "Series" ∈ df.cols ∧
          "Rarity" ∈ df.cols ∧ "Year" ∈ df.cols then
    df.rows.any (fun row =>
      (pnorm (row.getD (df.cols.indexOf ("Toy #")) "") == pnorm toy_no) &&
      (pnorm (row.getD (df.cols.indexOf ("Name")) "") == pnorm name) &&
      (pnorm (row.getD (df.cols.indexOf ("Series")) "") == pnorm series) &&
      (pnorm (row.getD (df.cols.indexOf ("Rarity")) "") == pnorm rarity) &&
      (pnorm (row.getD (df.cols.indexOf ("Year")) "") == pnorm year))
  else false

/-- The allowed rarity labels (`rarity_options` in the source); the form
offers exactly these in its `Rarity` selectbox. -/
def rarity_options : List String :=
  ["TH", "STH", "Normal", "New Model", "New for Year", "New in Mainline", "Exclusive"]

/-- The 14 form fields of one submission, untrimmed, in declared column
order. -/
structure FormInput where
  toy_no : String
  collector_no : String
  name : String
  series : String
  series_no : String
  year : String
  rarity : String
  exclusive_desc : String
  color : String
  tampo : String
  base_color : String
  window_color : String
  interior_color : String
  wheel_type : String
deriving DecidableEq

/-- The names of the required fields that are empty after trimming, in
the order of the handler's `required` dict. -/
def requiredMissing (inp : FormInput) : List String :=
  (([("Toy #", pstrip inp.toy_no), ("Name", pstrip inp.name),
     ("Series", pstrip inp.series), ("Rarity", pstrip inp.rarity)]).filter
    (fun p => p.2 == "")).map Prod.fst

/-- The `row` dict built by the handler on the success path: every field
trimmed, keys in declared column order. -/
def mkRowCells (inp : FormInput) : List String :=
  [pstrip inp.toy_no, pstrip inp.collector_no, pstrip inp.name, pstrip inp.series,
   pstrip inp.series_no, pstrip inp.year, pstrip inp.rarity, pstrip inp.exclusive_desc,
   pstrip inp.color, pstrip inp.tampo, pstrip inp.base_color, pstrip inp.window_color,
   pstrip inp.interior_color, pstrip inp.wheel_type]

/-- The four user-visible outcomes of a submission, plus the surfaced
write failure (`st.error("Failed to save entry: ...")`). -/
inductive SubmitResult where
  | validationError (missing : List String)
  | exclusiveError
  | duplicateSkip
  | success
  | saveError
deriving DecidableEq

/-- The submit handler: missing-required check, exclusive-description
check, duplicate check against the freshly loaded catalog, then
`save_row`.  `writeOk` tells whether the file write succeeds; on failure
the handler reports the error and writes nothing. -/
def submit (fs : FileState) (inp : FormInput) (writeOk : Bool) : SubmitResult × FileState :=
  if requiredMissing inp ≠ [] then (.validationError (requiredMissing inp), fs)
  else if inp.rarity == "Exclusive" && pstrip inp.exclusive_desc == "" then
    (.exclusiveError, fs)
  else if duplicate_exists (load_catalog fs) inp.toy_no inp.name inp.series
            inp.rarity inp.year then (.duplicateSkip, fs)
  else if writeOk then (.success, save_row fs (mkRowCells inp))
  else (.saveError, fs)

/-- Writing a sequence of rows one `save_row` call at a time. -/
def saveAll (fs : FileState) (rows : List (List String)) : FileState :=
  rows.foldl save_row fs

/-- The raw parsed rows of the backing file (empty when there is no
parsed table). -/
def fileRawRows (fs : FileState) : List (List (Option String)) :=
  match fs with
  | .parsed t => t.rows
  | _ => []

/-! Lemmas about the string normalisation. -/

theorem dropWhile_self_idem (p : Char → Bool) (l : List Char) :
    (l.dropWhile p).dropWhile p = l.dropWhile p := by
  induction l with
  | nil => rfl
  | cons a l ih =>
    by_cases h : p a
    · simp [List.dropWhile_cons, h, ih]
    · simp [List.dropWhile_cons, h]

theorem rstrip_cons (a : Char) (t : List Char) :
    rstrip (a :: t) =
      match rstrip t with
      | [] => if a.isWhitespace then [] else [a]
      | b :: u => a :: b :: u := rfl

theorem rstrip_idem (l : List Char) : rstrip (rstrip l) = rstrip l := by
  induction l with
  | nil => rfl
  | cons a t ih =>
    cases ht : rstrip t with
    | nil =>
      have h1 : rstrip (a :: t) = if a.isWhitespace then [] else [a] := by rw [rstrip_cons, ht]
      have h2 : rstrip [a] = if a.isWhitespace then [] else [a] := rfl
      by_cases h : a.isWhitespace
      · rw [h1, if_pos h]; rfl
      · rw [h1, if_neg h, h2, if_neg h]
    | cons b u =>
      rw [ht] at ih
      have h1 : rstrip (a :: t) = a :: b :: u := by rw [rstrip_cons, ht]
      have h2 : rstrip (a :: b :: u) = a :: b :: u := by rw [rstrip_cons, ih]
      rw [h1, h2]

/-- The function `rstrip` keeps the head of the list (or empties it). -/
theorem rstrip_head (a : Char) (t : List Char) :
    rstrip (a :: t) = [] ∨ ∃ u, rstrip (a :: t) = a :: u := by
  cases ht : rstrip t with
  | nil =>
    by_cases h : a.isWhitespace
    · left; simp [rstrip, ht, h]
    · right; exact ⟨[], by simp [rstrip, ht, h]⟩
  | cons b u => right; exact ⟨b :: u, by simp [rstrip, ht]⟩

/-- If the list has no leading whitespace, neither has its `rstrip`. -/
theorem lstrip_rstrip (m : List Char) (hm : lstrip m = m) :
    lstrip (rstrip m) = rstrip m := by
  cases m with
  | nil => rfl
  | cons a t =>
    have hlen : ∀ (q : List Char), (q.dropWhile Char.isWhitespace).length ≤ q.length := by
      intro q
      induction q with
      | nil => simp
      | cons c v ihq =>
        by_cases hc : c.isWhitespace
        · rw [List.dropWhile_cons, if_pos hc]; exact Nat.le_succ_of_le ihq
        · rw [List.dropWhile_cons, if_neg hc]
    have ha : ¬ a.isWhitespace := by
      intro h
      have h0 : lstrip (a :: t) = lstrip t := by simp [lstrip, List.dropWhile_cons, h]
      rw [hm] at h0
      have h1 := congrArg List.length h0
      simp only [List.length_cons, lstrip] at h1
      have hle := hlen t
      omega
    rcases rstrip_head a t with h | ⟨u, h⟩
    · simp [h, lstrip]
    · simp [h, lstrip, List.dropWhile_cons, ha]

theorem pstrip_idem (s : String) : pstrip (pstrip s) = pstrip s := by
  show (⟨rstrip (lstrip (rstrip (lstrip s.data)))⟩ : String) = ⟨rstrip (lstrip s.data)⟩
  rw [lstrip_rstrip (lstrip s.data) (dropWhile_self_idem _ _), rstrip_idem]

theorem pnorm_pstrip (s : String) : pnorm (pstrip s) = pnorm s := by
  show plower (pstrip (pstrip s)) = plower (pstrip s)
  rw [pstrip_idem]

/-! Lemmas about loading and saving. -/

theorem load_cols (fs : FileState) : (load_catalog fs).cols = COLUMNS := by
  cases fs <;> rfl

theorem COLUMNS_nodup : COLUMNS.Nodup := by decide

/-- Reindexing a nodup header against a row of matching length recovers
the row. -/
theorem map_indexOf_getD (cols : List String) (r : List String)
    (hn : cols.Nodup) (hl : r.length = cols.length) :
    cols.map (fun c => r.getD (cols.indexOf c) "") = r := by
  induction cols generalizing r with
  | nil =>
    cases r with
    | nil => rfl
    | cons a rs => simp at hl
  | cons c0 cs ih =>
    cases r with
    | nil => simp at hl
    | cons a rs =>
      simp only [List.nodup_cons] at hn
      simp only [List.length_cons, Nat.succ.injEq] at hl
      simp only [List.map_cons, List.indexOf_cons_self, List.getD_cons_zero, List.cons.injEq,
        true_and]
      have : cs.map (fun c => (a :: rs).getD ((c0 :: cs).indexOf c) "") =
          cs.map (fun c => rs.getD (cs.indexOf c) "") := by
        apply List.map_congr_left
        intro c hc
        have hne : c ≠ c0 := fun h => hn.1 (h ▸ hc)
        rw [List.indexOf_cons_ne _ hne.symm, List.getD_cons_succ]
      rw [this, ih rs hn.2 hl]

theorem collapse_empty : collapse ("") = "" := rfl

theorem collapse_idem (v : String) : collapse (collapse v) = collapse v := by
  by_cases h : v ∈ NA_VALUES
  · simp only [collapse, writeCell, if_pos h]
    rfl
  · simp only [collapse, writeCell, Option.getD_some, if_neg h]

theorem map_collapse_idem (r : List String) :
    (r.map collapse).map collapse = r.map collapse := by
  rw [List.map_map]
  exact List.map_congr_left fun v _ => collapse_idem v

theorem getD_map_write (r : List String) (i : Nat) :
    ((r.map writeCell).getD i none).getD ("") = collapse (r.getD i ("")) := by
  rw [List.getD_eq_getElem?_getD, List.getD_eq_getElem?_getD, List.getElem?_map]
  cases h : r[i]? with
  | none =>
    simp only [Option.map_none, Option.getD_none]
    exact collapse_empty.symm
  | some a => simp [collapse]

/-- Loading back a written row of full width recovers it cell for cell
up to the NA collapse of the CSV round trip. -/
theorem loadCell_roundtrip (r : List String) (hl : r.length = COLUMNS.length) :
    COLUMNS.map (loadCell COLUMNS (r.map writeCell)) = r.map collapse := by
  have h1 : COLUMNS.map (loadCell COLUMNS (r.map writeCell)) =
      COLUMNS.map (fun c => collapse (r.getD (COLUMNS.indexOf c) "")) := by
    apply List.map_congr_left
    intro c hc
    simp only [loadCell, if_pos hc, getD_map_write]
  have h2 : COLUMNS.map (fun c => collapse (r.getD (COLUMNS.indexOf c) "")) =
      (COLUMNS.map (fun c => r.getD (COLUMNS.indexOf c) "")).map collapse := by
    rw [List.map_map]
    rfl
  rw [h1, h2, map_indexOf_getD COLUMNS r COLUMNS_nodup hl]

theorem load_rows_length (fs : FileState) :
    ∀ r ∈ (load_catalog fs).rows, r.length = COLUMNS.length := by
  cases fs with
  | missing => intro r hr; simp [load_catalog] at hr
  | corrupt => intro r hr; simp [load_catalog] at hr
  | parsed t =>
    intro r hr
    simp only [load_catalog, List.mem_map] at hr
    obtain ⟨row, _, rfl⟩ := hr
    simp

/-- One `save_row` appends the written row to the loaded catalog, every
cell (old and new) passing once more through the CSV NA collapse. -/
theorem load_save (fs : FileState) (row : List String) (hl : row.length = COLUMNS.length) :
    load_catalog (save_row fs row) =
      ⟨COLUMNS, (load_catalog fs).rows.map (fun r => r.map collapse) ++ [row.map collapse]⟩ := by
  have hsave : save_row fs row =
      .parsed ⟨COLUMNS,
        (load_catalog fs).rows.map (fun r => r.map writeCell) ++ [row.map writeCell]⟩ := by
    simp only [save_row, load_cols]
  rw [hsave]
  show (⟨COLUMNS, ((load_catalog fs).rows.map (fun r => r.map writeCell) ++
      [row.map writeCell]).map (fun r => COLUMNS.map (loadCell COLUMNS r))⟩ : DF) = _
  congr 1
  rw [List.map_append, List.map_map, List.map_singleton]
  refine congrArg₂ (· ++ ·) ?_ ?_
  · apply List.map_congr_left
    intro r hr
    show COLUMNS.map (loadCell COLUMNS (r.map writeCell)) = r.map collapse
    exact loadCell_roundtrip r (load_rows_length fs r hr)
  · rw [loadCell_roundtrip row hl]

/-! Lemmas about the submit path. -/

theorem excl_cond_false (inp : FormInput)
    (h : ¬(inp.rarity = "Exclusive" ∧ pstrip inp.exclusive_desc = "")) :
    (inp.rarity == "Exclusive" && (pstrip inp.exclusive_desc == "")) = false := by
  by_cases hr : inp.rarity = "Exclusive"
  · have hd : pstrip inp.exclusive_desc ≠ "" := fun hd => h ⟨hr, hd⟩
    simp [hr, hd]
  · simp [hr]

/-- Once validation passes, `submit` is decided by the duplicate check and
the write outcome. -/
theorem submit_pass (fs : FileState) (inp : FormInput) (w : Bool)
    (h1 : requiredMissing inp = [])
    (h2 : (inp.rarity == "Exclusive" && (pstrip inp.exclusive_desc == "")) = false) :
    submit fs inp w =
      if duplicate_exists (load_catalog fs) inp.toy_no inp.name inp.series inp.rarity inp.year
      then (.duplicateSkip, fs)
      else if w then (.success, save_row fs (mkRowCells inp)) else (.saveError, fs) := by
  simp [submit, h1, h2]

/-- A successful submission forces every check to have passed and the
state to be the rewrite of the file with the trimmed row appended. -/
theorem submit_success_inv (fs : FileState) (inp : FormInput) (fs' : FileState)
    (h : submit fs inp true = (.success, fs')) :
    requiredMissing inp = [] ∧
    (inp.rarity == "Exclusive" && (pstrip inp.exclusive_desc == "")) = false ∧
    duplicate_exists (load_catalog fs) inp.toy_no inp.name inp.series inp.rarity inp.year = false ∧
    fs' = save_row fs (mkRowCells inp) := by
  by_cases h1 : requiredMissing inp = []
  · cases h2 : (inp.rarity == "Exclusive" && (pstrip inp.exclusive_desc == "")) with
    | true => simp [submit, h1, h2] at h
    | false =>
      cases h3 : duplicate_exists (load_catalog fs) inp.toy_no inp.name inp.series
          inp.rarity inp.year with
      | true => simp [submit, h1, h2, h3] at h
      | false =>
        refine ⟨h1, rfl, rfl, ?_⟩
        simp [submit, h1, h2, h3] at h
        exact h.symm
  · exfalso
    simp only [submit] at h
    rw [if_pos h1] at h
    simp at h

/-- The check `duplicate_exists` on a well-formed frame is exactly the existence of
a row matching the candidate's five composite fields after
`.strip().lower()` normalisation (columns `0, 2, 3, 6, 5` of `COLUMNS`
are Toy #, Name, Series, Rarity, Year). -/
theorem dup_iff (df : DF) (hcols : df.cols = COLUMNS) (t n s r y : String) :
    duplicate_exists df t n s r y = true ↔
      ∃ row ∈ df.rows,
        pnorm (row.getD 0 ("")) = pnorm t ∧ pnorm (row.getD 2 ("")) = pnorm n ∧
        pnorm (row.getD 3 ("")) = pnorm s ∧ pnorm (row.getD 6 ("")) = pnorm r ∧
        pnorm (row.getD 5 ("")) = pnorm y := by
  obtain ⟨cols, rows⟩ := df
  simp only at hcols
  subst hcols
  have hmem : ("Toy #" ∈ COLUMNS ∧ "Name" ∈ COLUMNS ∧ "Series" ∈ COLUMNS ∧
      "Rarity" ∈ COLUMNS ∧ "Year" ∈ COLUMNS) := by decide
  have e0 : COLUMNS.indexOf ("Toy #") = 0 := rfl
  have e1 : COLUMNS.indexOf ("Name") = 2 := rfl
  have e2 : COLUMNS.indexOf ("Series") = 3 := rfl
  have e3 : COLUMNS.indexOf ("Rarity") = 6 := rfl
  have e4 : COLUMNS.indexOf ("Year") = 5 := rfl
  cases rows with
  | nil => simp [duplicate_exists]
  | cons r0 rs =>
    simp [duplicate_exists, hmem, e0, e1, e2, e3, e4, and_assoc]

/-- After saving the trimmed row, the same candidate is reported as a
duplicate, provided the five trimmed composite cells survive the CSV NA
collapse: trimming is idempotent and normalisation absorbs it. -/
theorem dup_after_save (fs : FileState) (inp : FormInput)
    (ht : collapse (pstrip inp.toy_no) = pstrip inp.toy_no)
    (hn : collapse (pstrip inp.name) = pstrip inp.name)
    (hs : collapse (pstrip inp.series) = pstrip inp.series)
    (hr : collapse (pstrip inp.rarity) = pstrip inp.rarity)
    (hy : collapse (pstrip inp.year) = pstrip inp.year) :
    duplicate_exists (load_catalog (save_row fs (mkRowCells inp)))
      inp.toy_no inp.name inp.series inp.rarity inp.year = true := by
  rw [load_save fs (mkRowCells inp) rfl]
  refine (dup_iff ⟨COLUMNS, (load_catalog fs).rows.map (fun r => r.map collapse) ++
      [(mkRowCells inp).map collapse]⟩ rfl
    inp.toy_no inp.name inp.series inp.rarity inp.year).mpr ?_
  refine ⟨(mkRowCells inp).map collapse,
    List.mem_append_right _ (List.mem_singleton_self _), ?_, ?_, ?_, ?_, ?_⟩
  · show pnorm (collapse (pstrip inp.toy_no)) = pnorm inp.toy_no
    rw [ht]
    exact pnorm_pstrip inp.toy_no
  · show pnorm (collapse (pstrip inp.name)) = pnorm inp.name
    rw [hn]
    exact pnorm_pstrip inp.name
  · show pnorm (collapse (pstrip inp.series)) = pnorm inp.series
    rw [hs]
    exact pnorm_pstrip inp.series
  · show pnorm (collapse (pstrip inp.rarity)) = pnorm inp.rarity
    rw [hr]
    exact pnorm_pstrip inp.rarity
  · show pnorm (collapse (pstrip inp.year)) = pnorm inp.year
    rw [hy]
    exact pnorm_pstrip inp.year

/-- C1 counterexample: Series "NA" is a CSV NA sentinel, so the saved
row reloads with Series "", the duplicate check misses, and submitting
the identical candidate twice yields `success` twice and two rows. -/
theorem duplicate_rejection_counterexample :
    (submit .missing
      ⟨"GHC39", "", "Camaro", "NA", "", "2023", "STH", "", "", "", "", "", "", ""⟩
      true).1 = .success ∧
    (submit (submit .missing
      ⟨"GHC39", "", "Camaro", "NA", "", "2023", "STH", "", "", "", "", "", "", ""⟩
      true).2
      ⟨"GHC39", "", "Camaro", "NA", "", "2023", "STH", "", "", "", "", "", "", ""⟩
      true).1 = .success ∧
    (load_catalog (submit (submit .missing
      ⟨"GHC39", "", "Camaro", "NA", "", "2023", "STH", "", "", "", "", "", "", ""⟩
      true).2
      ⟨"GHC39", "", "Camaro", "NA", "", "2023", "STH", "", "", "", "", "", "", ""⟩
      true).2).rows.length = 2 := by
  decide

/-- C1 (amended): for every catalog state and every candidate that
passes validation, is not yet present, and whose five trimmed composite
fields are no CSV NA sentinels (so they survive the write/reload round
trip), submitting the identical candidate twice yields `success` on the
first attempt and `duplicateSkip` on the second, and the loaded catalog
grows by exactly one row, not two. -/
theorem duplicate_rejection_idempotent (fs : FileState) (inp : FormInput)
    (h1 : requiredMissing inp = [])
    (h2 : ¬(inp.rarity = "Exclusive" ∧ pstrip inp.exclusive_desc = ""))
    (h3 : duplicate_exists (load_catalog fs) inp.toy_no inp.name inp.series
      inp.rarity inp.year = false)
    (ht : collapse (pstrip inp.toy_no) = pstrip inp.toy_no)
    (hn : collapse (pstrip inp.name) = pstrip inp.name)
    (hs : collapse (pstrip inp.series) = pstrip inp.series)
    (hr : collapse (pstrip inp.rarity) = pstrip inp.rarity)
    (hy : collapse (pstrip inp.year) = pstrip inp.year) :
    ∃ fs', submit fs inp true = (.success, fs') ∧
      submit fs' inp true = (.duplicateSkip, fs') ∧
      (load_catalog fs').rows.length = (load_catalog fs).rows.length + 1 := by
  have h2' := excl_cond_false inp h2
  refine ⟨save_row fs (mkRowCells inp), ?_, ?_, ?_⟩
  · rw [submit_pass fs inp true h1 h2', if_neg]
    · simp
    · simp [h3]
  · rw [submit_pass _ inp true h1 h2', if_pos]
    simp [dup_after_save fs inp ht hn hs hr hy]
  · rw [load_save fs (mkRowCells inp) rfl]
    simp

/-- C1 witness: a concrete first-time submission to an empty catalog. -/
theorem duplicate_rejection_idempotent_witness :
    ∃ fs', submit .missing
        ⟨"GHC39", "", "Camaro", "Mainline", "", "2023", "STH", "", "", "", "", "", "", ""⟩
        true = (.success, fs') ∧
      submit fs' ⟨"GHC39", "", "Camaro", "Mainline", "", "2023", "STH", "", "", "", "", "", "", ""⟩
        true = (.duplicateSkip, fs') ∧
      (load_catalog fs').rows.length =
        (load_catalog .missing).rows.length + 1 :=
  duplicate_rejection_idempotent .missing
    ⟨"GHC39", "", "Camaro", "Mainline", "", "2023", "STH", "", "", "", "", "", "", ""⟩
    (by decide) (by decide) (by decide) (by decide) (by decide) (by decide) (by decide)
    (by decide)

/-! Round trip of written rows. -/

/-- Saving a sequence of rows: every loaded row already being
collapse-fixed, the result is the old rows followed by the written rows,
each new row passed through the CSV NA collapse (the collapse is
idempotent, so later rewrites change nothing further). -/
theorem load_saveAll (fs : FileState) (rows : List (List String))
    (h : ∀ r ∈ rows, r.length = COLUMNS.length)
    (hfix : ∀ r ∈ (load_catalog fs).rows, r.map collapse = r) :
    (load_catalog (saveAll fs rows)).rows =
      (load_catalog fs).rows ++ rows.map (fun r => r.map collapse) := by
  induction rows generalizing fs with
  | nil => simp [saveAll]
  | cons r rs ih =>
    have hr : r.length = COLUMNS.length := h r (List.mem_cons_self r rs)
    have hrs : ∀ x ∈ rs, x.length = COLUMNS.length := fun x hx => h x (List.mem_cons_of_mem r hx)
    have hsave : (load_catalog (save_row fs r)).rows =
        (load_catalog fs).rows ++ [r.map collapse] := by
      rw [load_save fs r hr]
      show (load_catalog fs).rows.map (fun x => x.map collapse) ++ [r.map collapse] = _
      rw [(List.map_congr_left hfix).trans (List.map_id _)]
    have hfix' : ∀ x ∈ (load_catalog (save_row fs r)).rows, x.map collapse = x := by
      rw [hsave]
      intro x hx
      rcases List.mem_append.mp hx with hold | hnew
      · exact hfix x hold
      · rw [List.mem_singleton.mp hnew]
        exact map_collapse_idem r
    show (load_catalog (saveAll (save_row fs r) rs)).rows = _
    rw [ih (save_row fs r) hrs hfix', hsave]
    simp

/-- C2 counterexample: a written Toy # cell "NA" is a CSV NA sentinel
and reloads as "", so the loaded rows are not the written rows. -/
theorem round_trip_counterexample :
    (load_catalog (saveAll .missing
      [["NA", "", "Camaro", "Mainline", "", "2023", "STH", "", "", "", "", "", "", ""]])).rows
      ≠ [["NA", "", "Camaro", "Mainline", "", "2023", "STH", "", "", "", "", "", "", ""]] := by
  decide

/-- C2 (amended): writing N full-width rows one `save_row` at a time,
starting from no backing file, then loading, returns exactly N rows with
the 14 declared columns in declared order; each cell is the written
value, except that a cell written as a CSV NA sentinel reloads as the
empty string. -/
theorem round_trip (rows : List (List String))
    (h : ∀ r ∈ rows, r.length = COLUMNS.length) :
    (load_catalog (saveAll .missing rows)).cols = COLUMNS ∧
    (load_catalog (saveAll .missing rows)).rows.length = rows.length ∧
    (load_catalog (saveAll .missing rows)).rows = rows.map (fun r => r.map collapse) := by
  have hrows : (load_catalog (saveAll .missing rows)).rows =
      rows.map (fun r => r.map collapse) := by
    rw [load_saveAll .missing rows h (by intro r hr; simp [load_catalog] at hr)]
    simp [load_catalog]
  refine ⟨load_cols _, ?_, hrows⟩
  rw [hrows]
  simp

/-- C2 witness: two concrete rows survive the round trip (no cell is an
NA sentinel, so the collapse leaves them unchanged). -/
theorem round_trip_witness :
    (load_catalog (saveAll .missing
      [["GHC39", "", "Camaro", "Mainline", "", "2023", "STH", "", "", "", "", "", "", ""],
       ["HW01", "", "Bone Shaker", "HW Originals", "", "2024", "TH", "", "", "", "", "", "", ""]])).cols
        = COLUMNS ∧
    (load_catalog (saveAll .missing
      [["GHC39", "", "Camaro", "Mainline", "", "2023", "STH", "", "", "", "", "", "", ""],
       ["HW01", "", "Bone Shaker", "HW Originals", "", "2024", "TH", "", "", "", "", "", "", ""]])).rows.length
        = 2 ∧
    (load_catalog (saveAll .missing
      [["GHC39", "", "Camaro", "Mainline", "", "2023", "STH", "", "", "", "", "", "", ""],
       ["HW01", "", "Bone Shaker", "HW Originals", "", "2024", "TH", "", "", "", "", "", "", ""]])).rows
        = [["GHC39", "", "Camaro", "Mainline", "", "2023", "STH", "", "", "", "", "", "", ""],
           ["HW01", "", "Bone Shaker", "HW Originals", "", "2024", "TH", "", "", "", "", "", "", ""]].map
            (fun r => r.map collapse) :=
  round_trip
    [["GHC39", "", "Camaro", "Mainline", "", "2023", "STH", "", "", "", "", "", "", ""],
     ["HW01", "", "Bone Shaker", "HW Originals", "", "2024", "TH", "", "", "", "", "", "", ""]]
    (by decide)

/-! Specification of the duplicate check. -/

/-- C3: on a well-formed frame, `duplicate_exists` is true iff some row's
Toy #, Name, Series, Rarity, Year (columns 0, 2, 3, 6, 5) equal the
candidate's after trimming and lowercasing; on an empty catalog it is
false for every candidate. -/
theorem duplicate_exists_spec (df : DF) (hcols : df.cols = COLUMNS) (t n s r y : String) :
    (duplicate_exists df t n s r y = true ↔
      ∃ row ∈ df.rows,
        pnorm (row.getD 0 ("")) = pnorm t ∧ pnorm (row.getD 2 ("")) = pnorm n ∧
        pnorm (row.getD 3 ("")) = pnorm s ∧ pnorm (row.getD 6 ("")) = pnorm r ∧
        pnorm (row.getD 5 ("")) = pnorm y) ∧
    (df.rows = [] → duplicate_exists df t n s r y = false) := by
  refine ⟨dup_iff df hcols t n s r y, ?_⟩
  intro hnil
  cases hb : duplicate_exists df t n s r y
  · rfl
  · exfalso
    obtain ⟨row, hrow, -⟩ := (dup_iff df hcols t n s r y).mp hb
    rw [hnil] at hrow
    simp at hrow

/-- C3 witness: a whitespace/case variant hits on a one-row catalog, and
the empty catalog rejects every candidate. -/
theorem duplicate_exists_spec_witness :
    (duplicate_exists
        ⟨COLUMNS, [["HW01", "", "Bone Shaker", "HW Originals", "", "2024", "TH", "", "", "", "",
          "", "", ""]]⟩ " hw01 " "Bone Shaker" "HW Originals" "TH" "2024" = true ↔
      ∃ row ∈ [["HW01", "", "Bone Shaker", "HW Originals", "", "2024", "TH", "", "", "", "",
          "", "", ""]],
        pnorm (row.getD 0 ("")) = pnorm (" hw01 ") ∧ pnorm (row.getD 2 ("")) = pnorm ("Bone Shaker") ∧
        pnorm (row.getD 3 ("")) = pnorm ("HW Originals") ∧ pnorm (row.getD 6 ("")) = pnorm ("TH") ∧
        pnorm (row.getD 5 ("")) = pnorm ("2024")) ∧
    ([["HW01", "", "Bone Shaker", "HW Originals", "", "2024", "TH", "", "", "", "", "", "",
        ""]] = ([] : List (List String)) →
      duplicate_exists
        ⟨COLUMNS, [["HW01", "", "Bone Shaker", "HW Originals", "", "2024", "TH", "", "", "", "",
          "", "", ""]]⟩ " hw01 " "Bone Shaker" "HW Originals" "TH" "2024" = false) :=
  duplicate_exists_spec
    ⟨COLUMNS, [["HW01", "", "Bone Shaker", "HW Originals", "", "2024", "TH", "", "", "", "",
      "", "", ""]]⟩ rfl (" hw01 ") "Bone Shaker" "HW Originals" "TH" "2024"

/-! Validation errors. -/

theorem mem_requiredMissing (inp : FormInput) (f : String) :
    f ∈ requiredMissing inp ↔
      ((f = "Toy #" ∧ pstrip inp.toy_no = "") ∨ (f = "Name" ∧ pstrip inp.name = "") ∨
       (f = "Series" ∧ pstrip inp.series = "") ∨ (f = "Rarity" ∧ pstrip inp.rarity = "")) := by
  by_cases e1 : pstrip inp.toy_no = "" <;> by_cases e2 : pstrip inp.name = "" <;>
    by_cases e3 : pstrip inp.series = "" <;> by_cases e4 : pstrip inp.rarity = "" <;>
    simp [requiredMissing, e1, e2, e3, e4]

theorem requiredMissing_ne_nil (inp : FormInput)
    (h : pstrip inp.toy_no = "" ∨ pstrip inp.name = "" ∨ pstrip inp.series = "" ∨
      pstrip inp.rarity = "") :
    requiredMissing inp ≠ [] := by
  have hex : ∃ f, f ∈ requiredMissing inp := by
    rcases h with he | he | he | he
    · exact ⟨"Toy #", (mem_requiredMissing inp ("Toy #")).mpr (Or.inl ⟨rfl, he⟩)⟩
    · exact ⟨"Name", (mem_requiredMissing inp ("Name")).mpr (Or.inr (Or.inl ⟨rfl, he⟩))⟩
    · exact ⟨"Series", (mem_requiredMissing inp ("Series")).mpr
        (Or.inr (Or.inr (Or.inl ⟨rfl, he⟩)))⟩
    · exact ⟨"Rarity", (mem_requiredMissing inp ("Rarity")).mpr
        (Or.inr (Or.inr (Or.inr ⟨rfl, he⟩)))⟩
  obtain ⟨f, hf⟩ := hex
  intro hnil
  rw [hnil] at hf
  simp at hf

/-- C4: when any required field is empty after trimming, the submission
is rejected with a validation error naming exactly the empty required
fields, and the file is untouched. -/
theorem missing_required_rejected (fs : FileState) (inp : FormInput) (w : Bool)
    (h : pstrip inp.toy_no = "" ∨ pstrip inp.name = "" ∨ pstrip inp.series = "" ∨
      pstrip inp.rarity = "") :
    submit fs inp w = (.validationError (requiredMissing inp), fs) ∧
    ∀ f, f ∈ requiredMissing inp ↔
      ((f = "Toy #" ∧ pstrip inp.toy_no = "") ∨ (f = "Name" ∧ pstrip inp.name = "") ∨
       (f = "Series" ∧ pstrip inp.series = "") ∨ (f = "Rarity" ∧ pstrip inp.rarity = "")) := by
  refine ⟨?_, mem_requiredMissing inp⟩
  simp only [submit]
  rw [if_pos (requiredMissing_ne_nil inp h)]

/-- C4 witness: an empty Toy # yields exactly `ValidationError ["Toy #"]`
and no write. -/
theorem missing_required_rejected_witness :
    submit .missing ⟨"", "", "X", "Y", "", "", "Normal", "", "", "", "", "", "", ""⟩ true =
      (.validationError ["Toy #"], .missing) := by
  have h := (missing_required_rejected .missing
    ⟨"", "", "X", "Y", "", "", "Normal", "", "", "", "", "", "", ""⟩ true (Or.inl rfl)).1
  rw [show requiredMissing ⟨"", "", "X", "Y", "", "", "Normal", "", "", "", "", "", "", ""⟩ =
    ["Toy #"] from by decide] at h
  exact h

/-- C5: with all required fields non-empty, Rarity "Exclusive" and an
empty Exclusive Description, the submission is rejected with the
exclusive-description error regardless of every other field, and the
file is untouched. -/
theorem exclusive_desc_required (fs : FileState) (inp : FormInput) (w : Bool)
    (h1 : pstrip inp.toy_no ≠ "") (h2 : pstrip inp.name ≠ "") (h3 : pstrip inp.series ≠ "")
    (h4 : inp.rarity = "Exclusive") (h5 : pstrip inp.exclusive_desc = "") :
    submit fs inp w = (.exclusiveError, fs) := by
  have hrar : pstrip inp.rarity = "Exclusive" := by rw [h4]; rfl
  have hnil : requiredMissing inp = [] := by
    rw [List.eq_nil_iff_forall_not_mem]
    intro f hf
    rcases (mem_requiredMissing inp f).mp hf with ⟨-, he⟩ | ⟨-, he⟩ | ⟨-, he⟩ | ⟨-, he⟩
    · exact h1 he
    · exact h2 he
    · exact h3 he
    · rw [hrar] at he
      exact absurd he (by decide)
  have hnot : ¬(requiredMissing inp ≠ []) := fun hc => hc hnil
  have hcond : (inp.rarity == "Exclusive" && (pstrip inp.exclusive_desc == "")) = true := by
    rw [h4, h5]
    rfl
  simp only [submit]
  rw [if_neg hnot, if_pos hcond]

/-- C5 witness: a concrete Exclusive submission with empty description. -/
theorem exclusive_desc_required_witness :
    submit .missing
      ⟨"GHC39", "", "Camaro", "Mainline", "", "2023", "Exclusive", "", "", "", "", "", "", ""⟩
      true = (.exclusiveError, .missing) :=
  exclusive_desc_required .missing
    ⟨"GHC39", "", "Camaro", "Mainline", "", "2023", "Exclusive", "", "", "", "", "", "", ""⟩
    true (by decide) (by decide) (by decide) rfl rfl

/-! Guarantees of the loader. -/

/-- C6: loading never fails: a missing backing file and an unparsable
backing file both load as the empty catalog with the declared 14-column
schema. -/
theorem load_never_fails :
    load_catalog .missing = ⟨COLUMNS, []⟩ ∧ load_catalog .corrupt = ⟨COLUMNS, []⟩ :=
  ⟨rfl, rfl⟩

/-- C7: loading any parsed file yields exactly the declared columns in
declared order, one output row per file row, each of full width, with
every declared column that the file lacks backfilled as the empty
string (undeclared file columns are dropped by the reindexing). -/
theorem load_schema (t : RawTable) (row : List String)
    (hrow : row ∈ (load_catalog (.parsed t)).rows) (i : Nat) (hi : i < COLUMNS.length)
    (hc : COLUMNS.get ⟨i, hi⟩ ∉ t.cols) :
    (load_catalog (.parsed t)).cols = COLUMNS ∧
    (load_catalog (.parsed t)).rows.length = t.rows.length ∧
    row.length = COLUMNS.length ∧
    row.getD i ("") = "" := by
  refine ⟨rfl, by simp [load_catalog], load_rows_length _ row hrow, ?_⟩
  simp only [load_catalog, List.mem_map] at hrow
  obtain ⟨raw, -, rfl⟩ := hrow
  have hc' : COLUMNS[i] ∉ t.cols := by simpa using hc
  rw [List.getD_eq_getElem?_getD, List.getElem?_map, List.getElem?_eq_getElem hi]
  simp [loadCell, hc']

/-- C7 witness: a file with one declared and one undeclared column. -/
theorem load_schema_witness :
    (load_catalog (.parsed ⟨["Toy #", "Junk"], [[some ("x"), some ("y")]]⟩)).cols = COLUMNS ∧
    (load_catalog (.parsed ⟨["Toy #", "Junk"], [[some ("x"), some ("y")]]⟩)).rows.length = 1 ∧
    (["x", "", "", "", "", "", "", "", "", "", "", "", "", ""] : List String).length =
      COLUMNS.length ∧
    (["x", "", "", "", "", "", "", "", "", "", "", "", "", ""] : List String).getD 1 ("") = "" :=
  load_schema ⟨["Toy #", "Junk"], [[some ("x"), some ("y")]]⟩
    ["x", "", "", "", "", "", "", "", "", "", "", "", "", ""]
    (by decide) 1 (by decide) (by decide)

/-! Invariants of saved rows. -/

/-- C8 counterexample: Color "None" is a CSV NA sentinel, so the last
row of the reloaded catalog is not the verbatim written row. -/
theorem rarity_saved_counterexample :
    (submit .missing
      ⟨"GHC39", "", "Camaro", "Mainline", "", "2023", "STH", "", "None", "", "", "", "", ""⟩
      true).1 = .success ∧
    (load_catalog (submit .missing
      ⟨"GHC39", "", "Camaro", "Mainline", "", "2023", "STH", "", "None", "", "", "", "", ""⟩
      true).2).rows.getLast? ≠ some (mkRowCells
      ⟨"GHC39", "", "Camaro", "Mainline", "", "2023", "STH", "", "None", "", "", "", "", ""⟩) := by
  decide

/-- C8 (amended): for a submission whose Rarity comes from the form's
selectbox (so lies in `rarity_options`) and which reaches the save, the
written Rarity value (column 6 of the trimmed row) is one of the
enumerated labels; the last row of the reloaded catalog is the written
row with NA-sentinel cells collapsed to the empty string, and its Rarity
cell is still one of the enumerated labels. -/
theorem rarity_saved_enumerated (fs fs' : FileState) (inp : FormInput)
    (hr : inp.rarity ∈ rarity_options)
    (h : submit fs inp true = (.success, fs')) :
    (mkRowCells inp).getD 6 ("") ∈ rarity_options ∧
    (load_catalog fs').rows.getLast? = some ((mkRowCells inp).map collapse) ∧
    ((mkRowCells inp).map collapse).getD 6 ("") ∈ rarity_options := by
  obtain ⟨-, -, -, rfl⟩ := submit_success_inv fs inp fs' h
  have hcases : inp.rarity = "TH" ∨ inp.rarity = "STH" ∨ inp.rarity = "Normal" ∨
      inp.rarity = "New Model" ∨ inp.rarity = "New for Year" ∨
      inp.rarity = "New in Mainline" ∨ inp.rarity = "Exclusive" := by
    simpa [rarity_options, List.mem_cons, List.not_mem_nil, or_false] using hr
  refine ⟨?_, ?_, ?_⟩
  · have hcell : (mkRowCells inp).getD 6 ("") = pstrip inp.rarity := rfl
    rw [hcell]
    rcases hcases with h' | h' | h' | h' | h' | h' | h' <;> rw [h'] <;> decide
  · rw [load_save fs (mkRowCells inp) rfl]
    exact List.getLast?_concat _
  · have hcell : ((mkRowCells inp).map collapse).getD 6 ("") =
        collapse (pstrip inp.rarity) := rfl
    rw [hcell]
    rcases hcases with h' | h' | h' | h' | h' | h' | h' <;> rw [h'] <;> decide

/-- C8 witness: a successful save of a "STH" row. -/
theorem rarity_saved_enumerated_witness :
    (mkRowCells
      ⟨"GHC39", "", "Camaro", "Mainline", "", "2023", "STH", "", "", "", "", "", "", ""⟩).getD 6 ("")
        ∈ rarity_options ∧
    (load_catalog (save_row .missing (mkRowCells
      ⟨"GHC39", "", "Camaro", "Mainline", "", "2023", "STH", "", "", "", "", "", "", ""⟩))).rows.getLast?
        = some ((mkRowCells
      ⟨"GHC39", "", "Camaro", "Mainline", "", "2023", "STH", "", "", "", "", "", "", ""⟩).map collapse) ∧
    ((mkRowCells
      ⟨"GHC39", "", "Camaro", "Mainline", "", "2023", "STH", "", "", "", "", "", "", ""⟩).map
        collapse).getD 6 ("") ∈ rarity_options :=
  rarity_saved_enumerated .missing
    (save_row .missing (mkRowCells
      ⟨"GHC39", "", "Camaro", "Mainline", "", "2023", "STH", "", "", "", "", "", "", ""⟩))
    ⟨"GHC39", "", "Camaro", "Mainline", "", "2023", "STH", "", "", "", "", "", "", ""⟩
    (by decide) (by decide)

/-- C9: when validation and the duplicate check pass but the write
fails, the handler reports the explicit save-failure outcome — distinct
from success — and the file is unchanged. -/
theorem write_failure_surfaced (fs : FileState) (inp : FormInput)
    (h1 : requiredMissing inp = [])
    (h2 : ¬(inp.rarity = "Exclusive" ∧ pstrip inp.exclusive_desc = ""))
    (h3 : duplicate_exists (load_catalog fs) inp.toy_no inp.name inp.series
      inp.rarity inp.year = false) :
    submit fs inp false = (.saveError, fs) ∧ (SubmitResult.saveError ≠ SubmitResult.success) := by
  refine ⟨?_, by simp⟩
  rw [submit_pass fs inp false h1 (excl_cond_false inp h2)]
  simp [h3]

/-- C9 witness: a failed write on a concrete valid submission. -/
theorem write_failure_surfaced_witness :
    submit .missing
      ⟨"GHC39", "", "Camaro", "Mainline", "", "2023", "STH", "", "", "", "", "", "", ""⟩
      false = (.saveError, .missing) ∧
    (SubmitResult.saveError ≠ SubmitResult.success) :=
  write_failure_surfaced .missing
    ⟨"GHC39", "", "Camaro", "Mainline", "", "2023", "STH", "", "", "", "", "", "", ""⟩
    (by decide) (by decide) (by decide)

/-- C10: every cell observed through `load_catalog` is a plain string:
either the empty string (the `fillna`/backfill replacement for NaN and
absent columns) or a value actually present in the parsed file. -/
theorem loaded_cells_strings (fs : FileState) (row : List String)
    (hrow : row ∈ (load_catalog fs).rows) (c : String) (hc : c ∈ row) :
    c = "" ∨ ∃ raw ∈ fileRawRows fs, some c ∈ raw := by
  cases fs with
  | missing => simp [load_catalog] at hrow
  | corrupt => simp [load_catalog] at hrow
  | parsed t =>
    simp only [load_catalog, List.mem_map] at hrow
    obtain ⟨raw, hraw, rfl⟩ := hrow
    simp only [List.mem_map] at hc
    obtain ⟨col, -, rfl⟩ := hc
    by_cases hmem : col ∈ t.cols
    · simp only [loadCell, if_pos hmem]
      cases hcell : raw.getD (t.cols.indexOf col) none with
      | none => left; rfl
      | some v =>
        right
        refine ⟨raw, hraw, ?_⟩
        rw [List.getD_eq_getElem?_getD] at hcell
        cases hx : raw[t.cols.indexOf col]? with
        | none => rw [hx] at hcell; simp at hcell
        | some o =>
          rw [hx] at hcell
          simp only [Option.getD_some] at hcell
          subst hcell
          simpa using List.getElem?_mem hx
    · simp only [loadCell, if_neg hmem]
      left
      trivial

/-- C10 witness: the one present cell is recovered, everything else is
the empty string. -/
theorem loaded_cells_strings_witness :
    ("x" = "" ∨ ∃ raw ∈ fileRawRows (.parsed ⟨["Toy #"], [[some ("x")]]⟩), some ("x") ∈ raw) :=
  loaded_cells_strings (.parsed ⟨["Toy #"], [[some ("x")]]⟩)
    ["x", "", "", "", "", "", "", "", "", "", "", "", "", ""]
    (by decide) "x" (by decide)

end HWCatalog
